import Mathlib

/-
Verification of the PRODIGY-LIG binding-affinity program (src/prodigy_lig.py)
against its natural-language specification.

The Python source is shallowly embedded as follows:
* Python byte strings are modelled as `List Char`; `str.startswith` becomes
  `startswith`; `str.upper()` becomes `List.map Char.toUpper`;
  `str.split(",")` becomes `splitComma`.
* Python floats are modelled as exact rationals `ℚ`; the float square root
  `** 0.5` is modelled as `Real.sqrt` on the cast to `ℝ`.
* The contact lines produced by `calc_atomic_contacts_python` (nine
  tab-joined tokens: resname/chain/resid/name for each atom plus the
  distance) are modelled as a structured record `Contact` with those nine
  fields; `words[3]` / `words[7]` of the source become the `name1` / `name2`
  fields.
* A Python method that mutates `self` and may raise is modelled as a function
  returning the final object state together with an optional error, so that
  mutations performed before a raise are visible in the result.
* Dictionary indexing with a missing key (`counts[None]`, a `KeyError`) is
  modelled by the `Except` error path of `calculate_contact_counts`.
-/

/-- The four atom categories returned by `_classify_atom`. -/
inductive Cat
  | C
  | N
  | O
  | X
  deriving DecidableEq, Repr

/-- The ten contact categories (keys of the `counts` dictionary). -/
inductive PairCat
  | CC
  | NN
  | OO
  | XX
  | CN
  | CO
  | CX
  | NO
  | NX
  | OX
  deriving DecidableEq, Repr

/-- The `counts` dictionary of `calculate_contact_counts`: the ten fixed keys
CC, NN, OO, XX, CN, CO, CX, NO, NX, OX, each holding a count. -/
structure Counts where
  CC : Nat
  NN : Nat
  OO : Nat
  XX : Nat
  CN : Nat
  CO : Nat
  CX : Nat
  NO : Nat
  NX : Nat
  OX : Nat
  deriving DecidableEq, Repr

/-- The initial `counts` dictionary: every one of the ten keys present and 0. -/
def initCounts : Counts := ⟨0, 0, 0, 0, 0, 0, 0, 0, 0, 0⟩

/-- The dictionary update `counts[contact_class] += 1`. -/
def bump (c : Counts) : PairCat → Counts
  | .CC => { c with CC := c.CC + 1 }
  | .NN => { c with NN := c.NN + 1 }
  | .OO => { c with OO := c.OO + 1 }
  | .XX => { c with XX := c.XX + 1 }
  | .CN => { c with CN := c.CN + 1 }
  | .CO => { c with CO := c.CO + 1 }
  | .CX => { c with CX := c.CX + 1 }
  | .NO => { c with NO := c.NO + 1 }
  | .NX => { c with NX := c.NX + 1 }
  | .OX => { c with OX := c.OX + 1 }

/-- Sum of the ten counts, i.e. Python's `sum(counts.values())`. -/
def countsSum (c : Counts) : Nat :=
  c.CC + c.NN + c.OO + c.XX + c.CN + c.CO + c.CX + c.NO + c.NX + c.OX

/-- Python `str.startswith` on byte strings, modelled on lists of characters. -/
def startswith : List Char → List Char → Bool
  | _, [] => true
  | [], _ :: _ => false
  | c :: s, p :: ps => (c == p) && startswith s ps

/-- Embedding of `_classify_atom` (src/prodigy_lig.py, lines 339-360): the
if/elif chain over `atom.startswith(...)`, returning `None` when no branch
fires. -/
def _classify_atom (atom : List Char) : Option Cat :=
  if startswith atom ['C'] && !(startswith atom ['C', 'L']) then some Cat.C
  else if startswith atom ['O'] then some Cat.O
  else if startswith atom ['N'] then some Cat.N
  else if !(startswith atom ['C'] || startswith atom ['N'] || startswith atom ['O'])
      || startswith atom ['C', 'L'] then some Cat.X
  else none

/-- Embedding of `_classify_contact` (src/prodigy_lig.py, lines 362-393): the
branch chain over the pair of atom classes, including the source's redundant
duplicated disjuncts for the NN, OO and XX branches. -/
def _classify_contact (atom_1 atom_2 : Option Cat) : Option PairCat :=
  if atom_1 = some Cat.C ∧ atom_2 = some Cat.C then some PairCat.CC
  else if (atom_1 = some Cat.C ∧ atom_2 = some Cat.N) ∨
      (atom_1 = some Cat.N ∧ atom_2 = some Cat.C) then some PairCat.CN
  else if (atom_1 = some Cat.C ∧ atom_2 = some Cat.O) ∨
      (atom_1 = some Cat.O ∧ atom_2 = some Cat.C) then some PairCat.CO
  else if (atom_1 = some Cat.C ∧ atom_2 = some Cat.X) ∨
      (atom_1 = some Cat.X ∧ atom_2 = some Cat.C) then some PairCat.CX
  else if (atom_1 = some Cat.N ∧ atom_2 = some Cat.N) ∨
      (atom_1 = some Cat.N ∧ atom_2 = some Cat.N) then some PairCat.NN
  else if (atom_1 = some Cat.N ∧ atom_2 = some Cat.O) ∨
      (atom_1 = some Cat.O ∧ atom_2 = some Cat.N) then some PairCat.NO
  else if (atom_1 = some Cat.N ∧ atom_2 = some Cat.X) ∨
      (atom_1 = some Cat.X ∧ atom_2 = some Cat.N) then some PairCat.NX
  else if (atom_1 = some Cat.O ∧ atom_2 = some Cat.O) ∨
      (atom_1 = some Cat.O ∧ atom_2 = some Cat.O) then some PairCat.OO
  else if (atom_1 = some Cat.O ∧ atom_2 = some Cat.X) ∨
      (atom_1 = some Cat.X ∧ atom_2 = some Cat.O) then some PairCat.OX
  else if (atom_1 = some Cat.X ∧ atom_2 = some Cat.X) ∨
      (atom_1 = some Cat.X ∧ atom_2 = some Cat.X) then some PairCat.XX
  else none

/-- One contact line emitted by the contact detectors: the nine tab-joined
tokens `resname chain resid name` of each atom followed by the distance
(`words[0]` .. `words[8]` of the source's line-splitting). -/
structure Contact where
  resname1 : List Char
  chain1 : List Char
  resid1 : List Char
  name1 : List Char
  resname2 : List Char
  chain2 : List Char
  resid2 : List Char
  name2 : List Char
  dist : ℝ

/-- The accumulation loop of `calculate_contact_counts`: classify both atom
names of each contact, classify the pair, and do `counts[contact_class] += 1`.
Indexing the dictionary with the key `None` raises `KeyError`, which is the
`Except.error` branch. -/
def countLoop (counts : Counts) : List Contact → Except Unit Counts
  | [] => .ok counts
  | c :: rest =>
    match _classify_contact (_classify_atom c.name1) (_classify_atom c.name2) with
    | some pc => countLoop (bump counts pc) rest
    | none => .error ()

/-- Embedding of `calculate_contact_counts` (src/prodigy_lig.py, lines
324-422): start from the all-zero ten-key dictionary and accumulate over the
contact list. -/
def calculate_contact_counts (contacts : List Contact) : Except Unit Counts :=
  countLoop initCounts contacts

/-- Embedding of `calculate_score` (src/prodigy_lig.py, lines 425-450). -/
def calculate_score (contact_counts : Counts) (electrostatics_energy : ℚ) : ℚ :=
  let elec_weight : ℚ := 0.343794
  let cc_weight : ℚ := -0.037597
  let nn_weight : ℚ := 0.138738
  let oo_weight : ℚ := 0.160043
  let xx_weight : ℚ := -3.088861
  let intercept : ℚ := 187.011384
  (elec_weight * electrostatics_energy) +
    (cc_weight * contact_counts.CC) +
    (nn_weight * contact_counts.NN) +
    (oo_weight * contact_counts.OO) +
    (xx_weight * contact_counts.XX) +
    intercept

/-- Embedding of `calculate_DG` (src/prodigy_lig.py, lines 453-468). -/
def calculate_DG (contact_counts : Counts) : ℚ :=
  let nn_weight : ℚ := 0.0354707
  let xx_weight : ℚ := -0.1277895
  let cn_weight : ℚ := -0.0072166
  let intercept : ℚ := -5.1923181
  (nn_weight * contact_counts.NN) +
    (xx_weight * contact_counts.XX) +
    (cn_weight * contact_counts.CN) +
    intercept

/-- Embedding of `calculate_DG_electrostatics` (src/prodigy_lig.py, lines
471-488). -/
def calculate_DG_electrostatics (contact_counts : Counts) (electrostatics_energy : ℚ) : ℚ :=
  let elec_weight : ℚ := 0.0115148
  let cc_weight : ℚ := -0.0014852
  let nn_weight : ℚ := 0.0057097
  let xx_weight : ℚ := -0.1301806
  let intercept : ℚ := -5.1002233
  (elec_weight * electrostatics_energy) +
    (cc_weight * contact_counts.CC) +
    (nn_weight * contact_counts.NN) +
    (xx_weight * contact_counts.XX) +
    intercept

/-- The atom-classification rule exactly as the spec words it (spec section
4.3): starts with "CL", or with none of C/N/O, gives X; starts with "C" (and
not "CL") gives C; starts with "O" gives O; starts with "N" gives N. Stated
separately from the source embedding `_classify_atom` so the two can be
compared. -/
def specCat (name : List Char) : Cat :=
  if startswith name ['C', 'L'] ||
      !(startswith name ['C'] || startswith name ['N'] || startswith name ['O']) then Cat.X
  else if startswith name ['C'] then Cat.C
  else if startswith name ['O'] then Cat.O
  else Cat.N

/-- The order-independent symmetric combination of two atom categories into a
pair category, as the spec words it (both (C,N) and (N,C) give CN, etc.). -/
def pairCombine : Cat → Cat → PairCat
  | .C, .C => .CC
  | .C, .N => .CN
  | .N, .C => .CN
  | .C, .O => .CO
  | .O, .C => .CO
  | .C, .X => .CX
  | .X, .C => .CX
  | .N, .N => .NN
  | .N, .O => .NO
  | .O, .N => .NO
  | .N, .X => .NX
  | .X, .N => .NX
  | .O, .O => .OO
  | .O, .X => .OX
  | .X, .O => .OX
  | .X, .X => .XX

/-- Membership in Python's `string.uppercase`, i.e. the byte range of the
characters A-Z (65 to 90). -/
def isUpperAZ (c : Char) : Bool := 65 ≤ c.toNat && c.toNat ≤ 90

/-- Python `str.split(",")` on byte strings: split on every comma, keeping
empty pieces (so `"".split(",") == [""]` and `"A,".split(",") == ["A", ""]`). -/
def splitComma : List Char → List (List Char)
  | [] => [[]]
  | c :: rest =>
    if c = ',' then [] :: splitComma rest
    else
      match splitComma rest with
      | [] => [[c]]
      | g :: gs => (c :: g) :: gs

/-- Number of distinct uppercase letters in a string:
`len(set(chain_string).intersection(string.uppercase))`. -/
def distinctUpperCount (l : List Char) : Nat :=
  ((l.filter fun c => isUpperAZ c).dedup).length

/-- Embedding of `validate_chain_string` (src/prodigy_lig.py, lines 84-118):
uppercase, fail on non-ASCII bytes (`decode("ascii")`), then either check the
single character is A-Z (the one-character membership test in
`string.uppercase` is expressed as the check over its single character), or
check every character is a letter or comma and that the comma count equals
the distinct-letter count minus one (Python integer arithmetic, so `Int`). -/
def validate_chain_string (chain_string : List Char) : Except Unit (List Char) :=
  let up := chain_string.map Char.toUpper
  if ¬ (∀ c ∈ up, c.toNat ≤ 127) then .error ()
  else if up.length = 1 then
    (if ∀ c ∈ up, isUpperAZ c then .ok up else .error ())
  else if ¬ (∀ c ∈ up, isUpperAZ c ∨ c = ',') then .error ()
  else if (up.count ',' : Int) ≠ (distinctUpperCount up : Int) - 1 then .error ()
  else .ok up

/-- Embedding of `ProdigyLig._parse_chains` (src/prodigy_lig.py, lines 75-127):
validate each raw chain string and split it on commas; the source's loop with
re-raise is the structural recursion. -/
def _parse_chains : List (List Char) → Except Unit (List (List (List Char)))
  | [] => .ok []
  | chain :: rest =>
    match validate_chain_string chain with
    | .error e => .error e
    | .ok v =>
      match _parse_chains rest with
      | .error e => .error e
      | .ok gs => .ok (splitComma v :: gs)

/-- One ATOM/HETATM coordinate record of the serialized structure, as read
back by `_process_coord_line` (src/prodigy_lig.py, lines 232-255): the chain
is the single character `line[21]`, and the float coordinates are modelled as
exact rationals. -/
structure SrcAtom where
  chain : Char
  resid : List Char
  name : List Char
  resname : List Char
  x : ℚ
  y : ℚ
  z : ℚ
  deriving DecidableEq, Repr

/-- Squared Euclidean distance of two atoms, in exact rational arithmetic. -/
def dist_sq (a b : SrcAtom) : ℚ :=
  (a.x - b.x) ^ 2 + (a.y - b.y) ^ 2 + (a.z - b.z) ^ 2

/-- Embedding of `_calc_dist` (src/prodigy_lig.py, lines 257-265):
`(dx^2 + dy^2 + dz^2) ** 0.5`, the float square root modelled as
`Real.sqrt`. -/
noncomputable def _calc_dist (a b : SrcAtom) : ℝ :=
  Real.sqrt (((a.x : ℝ) - (b.x : ℝ)) ^ 2 + ((a.y : ℝ) - (b.y : ℝ)) ^ 2 +
    ((a.z : ℝ) - (b.z : ℝ)) ^ 2)

instance decCalcDistLe (a b : SrcAtom) (c : ℚ) : Decidable (_calc_dist a b ≤ (c : ℝ)) :=
  decidable_of_iff (0 ≤ c ∧ dist_sq a b ≤ c ^ 2)
    (by
      unfold _calc_dist dist_sq
      rw [Real.sqrt_le_iff]
      constructor
      · rintro ⟨h1, h2⟩
        refine ⟨by exact_mod_cast h1, ?_⟩
        have h3 : ((((a.x - b.x) ^ 2 + (a.y - b.y) ^ 2 + (a.z - b.z) ^ 2 : ℚ)) : ℝ) ≤
            ((c ^ 2 : ℚ) : ℝ) := by exact_mod_cast h2
        push_cast at h3
        linarith
      · rintro ⟨h1, h2⟩
        refine ⟨by exact_mod_cast h1, ?_⟩
        have h3 : ((((a.x - b.x) ^ 2 + (a.y - b.y) ^ 2 + (a.z - b.z) ^ 2 : ℚ)) : ℝ) ≤
            ((c ^ 2 : ℚ) : ℝ) := by push_cast; linarith
        exact_mod_cast h3)

/-- The bucket `coordinates[0]` built by `calc_atomic_contacts_python` (lines
267-302): the atoms whose one-character chain identifier occurs in the first
chain group. -/
def bucket0 (atoms : List SrcAtom) (chains : List (List (List Char))) : List SrcAtom :=
  atoms.filter fun a => decide ([a.chain] ∈ chains.getD 0 [])

/-- The bucket `coordinates[1]`: the atoms whose chain identifier occurs in
the second chain group and not in the first (the source assigns each atom to
the first group containing its chain). -/
def bucket1 (atoms : List SrcAtom) (chains : List (List (List Char))) : List SrcAtom :=
  atoms.filter fun a =>
    decide (¬ [a.chain] ∈ chains.getD 0 [] ∧ [a.chain] ∈ chains.getD 1 [])

/-- The contact line appended for a kept pair (lines 309-319): the tab-join
of resname/chain/resid/name of the reference atom, the same four tokens of
the mobile atom, and the distance. -/
def mkContact (ref_atom mob_atom : SrcAtom) (d : ℝ) : Contact :=
  ⟨ref_atom.resname, [ref_atom.chain], ref_atom.resid, ref_atom.name,
    mob_atom.resname, [mob_atom.chain], mob_atom.resid, mob_atom.name, d⟩

/-- Embedding of `calc_atomic_contacts_python` (src/prodigy_lig.py, lines
225-321): bucket the structure's coordinate records by the two chain groups,
then keep every (reference, mobile) pair whose distance is at most the
cutoff. Modelled for the two-group usage that the CLI guarantees
(`nargs=2`). -/
noncomputable def calc_atomic_contacts_python
    (structure_atoms : List SrcAtom) (chains : List (List (List Char))) (cutoff : ℚ) :
    List Contact :=
  (bucket0 structure_atoms chains).flatMap fun ref_atom =>
    (bucket1 structure_atoms chains).filterMap fun mob_atom =>
      if _calc_dist ref_atom mob_atom ≤ (cutoff : ℝ) then
        some (mkContact ref_atom mob_atom (_calc_dist ref_atom mob_atom))
      else none

/-- The Python value held by the `cpp_contacts` attribute: `None`, the
one-element list produced by argparse (`nargs=1`), or the string that
`predict` replaces the list with. -/
inductive CppContacts
  | pynone
  | strs (l : List (List Char))
  | str (s : List Char)
  deriving DecidableEq, Repr

/-- The exceptions `predict` can raise: the `RuntimeWarning` for "no contacts
between the specified chains", the `KeyError` from indexing the counts
dictionary with `None`, and the `IndexError` from `cpp_contacts[0]` on an
empty sequence. -/
inductive PredictErr
  | noContactsFound
  | keyError
  | indexError
  deriving DecidableEq, Repr

/-- The `ProdigyLig` object state (src/prodigy_lig.py, lines 26-38). -/
structure ProdigyLig where
  structure_atoms : List SrcAtom
  chains : List (List (List Char))
  electrostatics : Option ℚ
  cpp_contacts : CppContacts
  cutoff : ℚ
  dg_score : Option ℚ
  dg_elec : Option ℚ
  dg : Option ℚ
  contact_counts : Option Counts
  deriving DecidableEq, Repr

/-- Embedding of `ProdigyLig.__init__` (lines 28-38): parse the chain
specification and initialise the four output attributes to `None`. -/
def ProdigyLig.init (structure_atoms : List SrcAtom) (chains : List (List Char))
    (electrostatics : Option ℚ) (cpp_contacts : CppContacts) (cutoff : ℚ) :
    Except Unit ProdigyLig :=
  match _parse_chains chains with
  | .error e => .error e
  | .ok parsed =>
    .ok ⟨structure_atoms, parsed, electrostatics, cpp_contacts, cutoff,
      none, none, none, none⟩

/-- The contact list `predict` computes (lines 44-48): the in-process
detector when `cpp_contacts` is `None`, otherwise the chain-filtered output
`ext` of the external executable (`calc_atomic_contacts_cpp` runs a
subprocess and is outside the modelled core, so its result is a parameter). -/
noncomputable def detectedContacts (ext : List Contact) (s : ProdigyLig) : List Contact :=
  match s.cpp_contacts with
  | .pynone => calc_atomic_contacts_python s.structure_atoms s.chains s.cutoff
  | _ => ext

/-- The part of `predict` after the contact-strategy dispatch (lines 50-60):
raise `RuntimeWarning` on an empty contact list, store the contact counts,
compute `dg_score` and `dg_elec` only when electrostatics is present, and
always compute `dg`. -/
noncomputable def predictRest (ext : List Contact) (s1 : ProdigyLig) :
    ProdigyLig × Option PredictErr :=
  let contacts := detectedContacts ext s1
  if contacts.length = 0 then (s1, some .noContactsFound)
  else
    match calculate_contact_counts contacts with
    | .error _ => (s1, some .keyError)
    | .ok counts =>
      let s2 := { s1 with contact_counts := some counts }
      let s3 :=
        match s1.electrostatics with
        | some e =>
          { s2 with
            dg_score := some (calculate_score counts e)
            dg_elec := some (calculate_DG_electrostatics counts e) }
        | none => s2
      ({ s3 with dg := some (calculate_DG counts) }, none)

/-- Embedding of `ProdigyLig.predict` (src/prodigy_lig.py, lines 40-60),
returning the final object state together with the raised exception, if any,
so that attribute mutations made before a raise stay visible. When
`cpp_contacts` is not `None` the source first replaces it by its first
element (`self.cpp_contacts = self.cpp_contacts[0]`), which raises
`IndexError` on an empty sequence. -/
noncomputable def predict (ext : List Contact) (s : ProdigyLig) :
    ProdigyLig × Option PredictErr :=
  match s.cpp_contacts with
  | .strs [] => (s, some .indexError)
  | .strs (x :: _) => predictRest ext { s with cpp_contacts := .str x }
  | .str [] => (s, some .indexError)
  | .str (ch :: _) => predictRest ext { s with cpp_contacts := .str [ch] }
  | .pynone => predictRest ext s

/-- Shape of the `cpp_contacts` attribute as the CLI produces it: `None` or a
non-empty argparse list (and a non-empty string once unwrapped). -/
def cppWellFormed : CppContacts → Prop
  | .pynone => True
  | .strs l => l ≠ []
  | .str x => x ≠ []

/-- Example atom at the origin on chain A (concrete test data). -/
def exAtomA : SrcAtom := ⟨'A', ['1'], ['C', 'A'], ['A', 'L', 'A'], 0, 0, 0⟩

/-- Example atom on chain B at height 10.5 (concrete test data). -/
def exAtomB : SrcAtom := ⟨'B', ['1'], ['C', 'B'], ['A', 'L', 'A'], 0, 0, 10.5⟩

/-- Example atom on chain B at the origin (concrete test data). -/
def exAtomB0 : SrcAtom := ⟨'B', ['2'], ['C', 'B'], ['A', 'L', 'A'], 0, 0, 0⟩

/-- Example chain groups ([A], [B]) (concrete test data). -/
def exChains : List (List (List Char)) := [[['A']], [['B']]]

/-- Example session with no atoms, electrostatics present, in-process
contact strategy (concrete test data). -/
def exSessionEmpty : ProdigyLig :=
  ⟨[], [[['A']], [['B']]], some 1, CppContacts.pynone, 10.5, none, none, none, none⟩

/-- Example session with one atom on each chain at the same position,
electrostatics present, in-process contact strategy (concrete test data). -/
def exSessionContact : ProdigyLig :=
  ⟨[exAtomA, exAtomB0], [[['A']], [['B']]], some 5, CppContacts.pynone, 10.5,
    none, none, none, none⟩

/-- Example session with no atoms, no electrostatics, in-process contact
strategy (concrete test data). -/
def exSessionNoAtoms : ProdigyLig :=
  ⟨[], [[['A']], [['B']]], none, CppContacts.pynone, 10.5, none, none, none, none⟩

/-- Example session with no atoms, no electrostatics, and the external
contact strategy configured with the one-element argparse list (concrete test
data). -/
def exSessionCpp : ProdigyLig :=
  ⟨[], [[['A']], [['B']]], none, CppContacts.strs [['E', 'X', 'T']], 10.5,
    none, none, none, none⟩

lemma startswith_CL_C {n : List Char} (h : startswith n ['C', 'L'] = true) :
    startswith n ['C'] = true := by
  cases n with
  | nil => simp [startswith] at h
  | cons a t =>
    simp [startswith] at h ⊢
    exact h.1

lemma startswith_single_ne {n : List Char} {c d : Char} (hcd : c ≠ d)
    (h : startswith n [c] = true) : startswith n [d] = false := by
  cases n with
  | nil => simp [startswith] at h
  | cons a t =>
    simp [startswith] at h ⊢
    intro hd
    exact hcd (h ▸ hd ▸ rfl)

/-- The source's atom classifier agrees with the spec's rule on every atom
name; in particular it never returns `None`. -/
lemma classify_atom_eq_spec (name : List Char) : _classify_atom name = some (specCat name) := by
  cases hCL : startswith name ['C', 'L'] with
  | true =>
    have hC := startswith_CL_C hCL
    have hO : startswith name ['O'] = false := startswith_single_ne (by decide) hC
    have hN : startswith name ['N'] = false := startswith_single_ne (by decide) hC
    simp [_classify_atom, specCat, hC, hCL, hO, hN]
  | false =>
    cases hC : startswith name ['C'] with
    | true =>
      have hO : startswith name ['O'] = false := startswith_single_ne (by decide) hC
      have hN : startswith name ['N'] = false := startswith_single_ne (by decide) hC
      simp [_classify_atom, specCat, hC, hCL, hO, hN]
    | false =>
      cases hO : startswith name ['O'] with
      | true =>
        have hN : startswith name ['N'] = false := startswith_single_ne (by decide) hO
        simp [_classify_atom, specCat, hC, hCL, hO, hN]
      | false =>
        cases hN : startswith name ['N'] with
        | true => simp [_classify_atom, specCat, hC, hCL, hO, hN]
        | false => simp [_classify_atom, specCat, hC, hCL, hO, hN]

lemma classify_atom_isSome (name : List Char) : (_classify_atom name).isSome = true := by
  rw [classify_atom_eq_spec]
  rfl

lemma classify_contact_comm (a1 a2 : Option Cat) :
    _classify_contact a1 a2 = _classify_contact a2 a1 := by
  rcases a1 with _ | x
  · rcases a2 with _ | y
    · rfl
    · cases y <;> rfl
  · rcases a2 with _ | y
    · cases x <;> rfl
    · cases x <;> cases y <;> rfl

lemma classify_contact_eq_pairCombine (x y : Cat) :
    _classify_contact (some x) (some y) = some (pairCombine x y) := by
  cases x <;> cases y <;> rfl

lemma countsSum_bump (c : Counts) (pc : PairCat) :
    countsSum (bump c pc) = countsSum c + 1 := by
  cases pc <;> simp [bump, countsSum] <;> omega

/-- The accumulation loop never raises and adds exactly one to the total per
contact. -/
lemma countLoop_ok (cs : List Contact) :
    ∀ c0 : Counts, ∃ c' : Counts,
      countLoop c0 cs = .ok c' ∧ countsSum c' = countsSum c0 + cs.length := by
  induction cs with
  | nil => exact fun c0 => ⟨c0, rfl, by simp⟩
  | cons c rest ih =>
    intro c0
    have h1 := classify_atom_eq_spec c.name1
    have h2 := classify_atom_eq_spec c.name2
    have h3 := classify_contact_eq_pairCombine (specCat c.name1) (specCat c.name2)
    obtain ⟨c', hok, hsum⟩ := ih (bump c0 (pairCombine (specCat c.name1) (specCat c.name2)))
    refine ⟨c', ?_, ?_⟩
    · simp only [countLoop, h1, h2, h3]
      exact hok
    · rw [hsum, countsSum_bump]
      simp [List.length_cons]
      omega

lemma upper_comma_ascii {c : Char} (h : isUpperAZ c = true ∨ c = ',') : c.toNat ≤ 127 := by
  rcases h with h | rfl
  · simp [isUpperAZ] at h
    omega
  · decide

/-- For strings of length greater than one (after uppercasing), validation
succeeds exactly when every character is an uppercase letter or a comma and
the comma count equals the distinct-letter count minus one. -/
lemma validate_len_gt_one (s : List Char) (h : 1 < (s.map Char.toUpper).length) :
    validate_chain_string s =
      if (∀ c ∈ s.map Char.toUpper, isUpperAZ c ∨ c = ',') ∧
          ((s.map Char.toUpper).count ',' : Int) =
            (distinctUpperCount (s.map Char.toUpper) : Int) - 1
      then .ok (s.map Char.toUpper) else .error () := by
  unfold validate_chain_string
  set u := s.map Char.toUpper with hu
  have hlen : ¬ (u.length = 1) := by omega
  by_cases hall : ∀ c ∈ u, isUpperAZ c = true ∨ c = ','
  · have hascii : ∀ c ∈ u, c.toNat ≤ 127 := fun c hc => upper_comma_ascii (hall c hc)
    rw [if_neg (not_not_intro hascii), if_neg hlen]
    by_cases hcnt : (u.count ',' : Int) = (distinctUpperCount u : Int) - 1
    · rw [if_neg (not_not_intro hall), if_neg (not_not_intro hcnt), if_pos ⟨hall, hcnt⟩]
    · rw [if_neg (not_not_intro hall), if_pos hcnt,
        if_neg (fun hc => hcnt hc.2)]
  · by_cases hascii : ∀ c ∈ u, c.toNat ≤ 127
    · rw [if_neg (not_not_intro hascii), if_neg hlen, if_pos hall,
        if_neg (fun hc => hall hc.1)]
    · rw [if_pos hascii, if_neg (fun hc => hascii (fun c hc' => upper_comma_ascii (hc.1 c hc')))]

lemma splitComma_shape (l : List Char) : ∃ g gs, splitComma l = g :: gs := by
  induction l with
  | nil => exact ⟨[], [], rfl⟩
  | cons c rest ih =>
    obtain ⟨g, gs, hgg⟩ := ih
    by_cases hc : c = ','
    · exact ⟨[], splitComma rest, by simp [splitComma, hc]⟩
    · exact ⟨c :: g, gs, by simp [splitComma, hc, hgg]⟩

lemma splitComma_ne_nil (l : List Char) : splitComma l ≠ [] := by
  obtain ⟨g, gs, hgg⟩ := splitComma_shape l
  simp [hgg]

/-- Every character of every piece of a comma-split belongs to the original
string and is not a comma. -/
lemma splitComma_chars {l p : List Char} {ch : Char}
    (hp : p ∈ splitComma l) (hc : ch ∈ p) : ch ∈ l ∧ ch ≠ ',' := by
  induction l generalizing p with
  | nil =>
    simp [splitComma] at hp
    subst hp
    simp at hc
  | cons a rest ih =>
    by_cases ha : a = ','
    · subst ha
      rw [show splitComma (',' :: rest) = [] :: splitComma rest by
        simp [splitComma]] at hp
      rcases List.mem_cons.mp hp with rfl | hp
      · simp at hc
      · obtain ⟨h1, h2⟩ := ih hp hc
        exact ⟨List.mem_cons_of_mem _ h1, h2⟩
    · obtain ⟨g, gs, hgg⟩ := splitComma_shape rest
      rw [show splitComma (a :: rest) = (a :: g) :: gs by
        simp only [splitComma, if_neg ha, hgg]] at hp
      rcases List.mem_cons.mp hp with rfl | hp
      · rcases List.mem_cons.mp hc with rfl | hcg
        · exact ⟨List.mem_cons_self _ _, ha⟩
        · have hg : g ∈ splitComma rest := by
            rw [hgg]
            exact List.mem_cons_self _ _
          obtain ⟨h1, h2⟩ := ih hg hcg
          exact ⟨List.mem_cons_of_mem _ h1, h2⟩
      · have hpr : p ∈ splitComma rest := by
          rw [hgg]
          exact List.mem_cons_of_mem _ hp
        obtain ⟨h1, h2⟩ := ih hpr hc
        exact ⟨List.mem_cons_of_mem _ h1, h2⟩

/-- Every character of a validated chain string is an uppercase letter or a
comma. -/
lemma validate_chars {s v : List Char} (h : validate_chain_string s = .ok v) :
    ∀ c ∈ v, isUpperAZ c = true ∨ c = ',' := by
  simp only [validate_chain_string] at h
  split_ifs at h with h1 h2 h3 h4 h5
  · intro c hc
    cases h
    exact Or.inl (h3 c hc)
  · intro c hc
    cases h
    exact h4 c hc

/-- The float comparison `dist <= cutoff` holds exactly when the cutoff is
non-negative and the squared distance is at most the squared cutoff. -/
lemma calc_dist_le_iff (a b : SrcAtom) (c : ℚ) :
    _calc_dist a b ≤ (c : ℝ) ↔ 0 ≤ c ∧ dist_sq a b ≤ c ^ 2 := by
  unfold _calc_dist dist_sq
  rw [Real.sqrt_le_iff]
  constructor
  · rintro ⟨h1, h2⟩
    refine ⟨by exact_mod_cast h1, ?_⟩
    have h3 : ((((a.x - b.x) ^ 2 + (a.y - b.y) ^ 2 + (a.z - b.z) ^ 2 : ℚ)) : ℝ) ≤
        ((c ^ 2 : ℚ) : ℝ) := by push_cast; linarith
    exact_mod_cast h3
  · rintro ⟨h1, h2⟩
    refine ⟨by exact_mod_cast h1, ?_⟩
    have h3 : ((((a.x - b.x) ^ 2 + (a.y - b.y) ^ 2 + (a.z - b.z) ^ 2 : ℚ)) : ℝ) ≤
        ((c ^ 2 : ℚ) : ℝ) := by exact_mod_cast h2
    push_cast at h3
    linarith

/-- A successfully constructed session starts with all four outputs absent. -/
lemma init_ok_shape {sa : List SrcAtom} {raw : List (List Char)} {elec : Option ℚ}
    {cpp : CppContacts} {cutoff : ℚ} {s : ProdigyLig}
    (h : ProdigyLig.init sa raw elec cpp cutoff = Except.ok s) :
    s.structure_atoms = sa ∧ s.electrostatics = elec ∧ s.cpp_contacts = cpp ∧
      s.cutoff = cutoff ∧ s.dg_score = none ∧ s.dg_elec = none ∧ s.dg = none ∧
      s.contact_counts = none := by
  unfold ProdigyLig.init at h
  cases hp : _parse_chains raw with
  | error e =>
    rw [hp] at h
    exact absurd h (by simp)
  | ok parsed =>
    rw [hp] at h
    cases h
    exact ⟨rfl, rfl, rfl, rfl, rfl, rfl, rfl, rfl⟩

/-- With an empty contact list, the tail of `predict` raises the
no-contacts warning and leaves the state alone. -/
lemma predictRest_empty {ext : List Contact} {s1 : ProdigyLig}
    (h : detectedContacts ext s1 = []) :
    predictRest ext s1 = (s1, some PredictErr.noContactsFound) := by
  simp [predictRest, h]

/-- A failing tail of `predict` returns the state it was given. -/
lemma predictRest_err {ext : List Contact} {s1 s' : ProdigyLig} {e : PredictErr}
    (h : predictRest ext s1 = (s', some e)) : s' = s1 := by
  simp only [predictRest] at h
  split_ifs at h with hlen
  · exact ((Prod.ext_iff.mp h).1).symm
  · cases hcc : calculate_contact_counts (detectedContacts ext s1) with
    | error e0 =>
      rw [hcc] at h
      simp only [Prod.mk.injEq] at h
      exact h.1.symm
    | ok counts =>
      rw [hcc] at h
      simp only [Prod.mk.injEq] at h
      exact absurd h.2 (by simp)

/-- A successful tail of `predict` always sets `dg`, sets `dg_score` and
`dg_elec` when electrostatics is present, and leaves them alone otherwise. -/
lemma predictRest_ok {ext : List Contact} {s1 s' : ProdigyLig}
    (h : predictRest ext s1 = (s', none)) :
    s'.dg.isSome = true ∧
      (∀ e0 : ℚ, s1.electrostatics = some e0 →
        s'.dg_score.isSome = true ∧ s'.dg_elec.isSome = true) ∧
      (s1.electrostatics = none →
        s'.dg_score = s1.dg_score ∧ s'.dg_elec = s1.dg_elec) := by
  simp only [predictRest] at h
  split_ifs at h with hlen
  · exact absurd (Prod.ext_iff.mp h).2 (by simp)
  · cases hcc : calculate_contact_counts (detectedContacts ext s1) with
    | error e0 =>
      rw [hcc] at h
      simp only [Prod.mk.injEq] at h
      exact absurd h.2 (by simp)
    | ok counts =>
      rw [hcc] at h
      simp only [Prod.mk.injEq, and_true] at h
      have hs' := h.symm
      subst hs'
      cases hel : s1.electrostatics with
      | some e0 => exact ⟨rfl, fun e1 h1 => ⟨rfl, rfl⟩, fun h1 => absurd h1 (by simp)⟩
      | none => exact ⟨rfl, fun e1 h1 => absurd h1 (by simp), fun h1 => ⟨rfl, rfl⟩⟩

/-- C1: for every contact histogram h and electrostatics energy e, the three
scoring functions `calculate_score`, `calculate_DG` and
`calculate_DG_electrostatics` equal their fixed linear formulas exactly, with
the weights and intercepts stated in the claim. -/
theorem c1_scoring_formulas :
    (∀ (h : Counts) (e : ℚ),
        calculate_score h e =
          0.343794 * e + (-0.037597) * h.CC + 0.138738 * h.NN + 0.160043 * h.OO +
            (-3.088861) * h.XX + 187.011384) ∧
    (∀ h : Counts,
        calculate_DG h =
          0.0354707 * h.NN + (-0.1277895) * h.XX + (-0.0072166) * h.CN + (-5.1923181)) ∧
    (∀ (h : Counts) (e : ℚ),
        calculate_DG_electrostatics h e =
          0.0115148 * e + (-0.0014852) * h.CC + 0.0057097 * h.NN + (-0.1301806) * h.XX +
            (-5.1002233)) := by
  refine ⟨fun h e => ?_, fun h => ?_, fun h e => ?_⟩
  · unfold calculate_score
    ring
  · unfold calculate_DG
    ring
  · unfold calculate_DG_electrostatics
    ring

/-- C2: every atom of a contact is classified by its name alone, following the
spec's prefix rule (`specCat`), and the pair category is the order-independent
symmetric combination of the two atom categories (`pairCombine`). -/
theorem c2_contact_classification :
    (∀ name : List Char, _classify_atom name = some (specCat name)) ∧
    (∀ a1 a2 : Option Cat, _classify_contact a1 a2 = _classify_contact a2 a1) ∧
    (∀ x y : Cat, _classify_contact (some x) (some y) = some (pairCombine x y)) :=
  ⟨classify_atom_eq_spec, classify_contact_comm, classify_contact_eq_pairCombine⟩

/-- C7: for every contact list the histogram computation succeeds with the ten
fixed keys, the total count equals the number of contacts whose both atoms
classify into one of C, N, O, X, and the empty list yields the all-zero
dictionary. -/
theorem c7_histogram_total :
    (∀ contacts : List Contact, ∃ counts : Counts,
        calculate_contact_counts contacts = Except.ok counts ∧
        countsSum counts =
          (contacts.filter (fun c =>
            (_classify_atom c.name1).isSome && (_classify_atom c.name2).isSome)).length) ∧
    calculate_contact_counts [] = Except.ok initCounts := by
  constructor
  · intro cs
    obtain ⟨c', hok, hsum⟩ := countLoop_ok cs initCounts
    refine ⟨c', hok, ?_⟩
    have hfilter :
        cs.filter (fun c =>
          (_classify_atom c.name1).isSome && (_classify_atom c.name2).isSome) = cs := by
      refine List.filter_eq_self.mpr fun c _ => ?_
      simp [classify_atom_isSome]
    rw [hfilter, hsum]
    simp [countsSum, initCounts]
  · rfl

/-- C9: no atom name ever fails to resolve to one of the categories C, N, O,
X (the classification chain of `_classify_atom` is exhaustive), so the
claim's "unresolvable atom name" case never occurs on any contact, and the
histogram computation `calculate_contact_counts` never raises on any contact
list. -/
theorem c9_unclassifiable_never_occurs :
    (∀ name : List Char, (_classify_atom name).isSome = true) ∧
    (∀ contacts : List Contact, ∃ counts : Counts,
        calculate_contact_counts contacts = Except.ok counts) := by
  refine ⟨classify_atom_isSome, fun cs => ?_⟩
  obtain ⟨c', hok, _⟩ := countLoop_ok cs initCounts
  exact ⟨c', hok⟩

/-- C3: for every chain-specification string of length greater than one
(after uppercasing), parsing fails exactly when some character is not an
uppercase letter or a comma, or the comma count differs from the
distinct-letter count minus one; otherwise the string is split on commas into
the ordered identifier list. The four listed strings fail and "A,B,C"
parses to ["A","B","C"]. -/
theorem c3_chain_spec_parsing :
    (∀ s : List Char, 1 < (s.map Char.toUpper).length →
      _parse_chains [s] =
        if (∀ c ∈ s.map Char.toUpper, isUpperAZ c ∨ c = ',') ∧
            ((s.map Char.toUpper).count ',' : Int) =
              (distinctUpperCount (s.map Char.toUpper) : Int) - 1
        then Except.ok [splitComma (s.map Char.toUpper)]
        else Except.error ()) ∧
    _parse_chains ["A,".toList] = Except.error () ∧
    _parse_chains [",A".toList] = Except.error () ∧
    _parse_chains ["A,,B".toList] = Except.error () ∧
    _parse_chains ["A1".toList] = Except.error () ∧
    _parse_chains ["A,B,C".toList] = Except.ok [["A".toList, "B".toList, "C".toList]] := by
  refine ⟨fun s h => ?_, rfl, rfl, rfl, rfl, rfl⟩
  have hv := validate_len_gt_one s h
  by_cases hcond : (∀ c ∈ s.map Char.toUpper, isUpperAZ c ∨ c = ',') ∧
      ((s.map Char.toUpper).count ',' : Int) =
        (distinctUpperCount (s.map Char.toUpper) : Int) - 1
  · rw [if_pos hcond] at hv
    simp only [_parse_chains, hv]
    rw [if_pos hcond]
  · rw [if_neg hcond] at hv
    simp only [_parse_chains, hv]
    rw [if_neg hcond]

/-- C3 witness: the theorem applied to the concrete input "A,B". -/
theorem c3_chain_spec_parsing_witness :
    1 < (("A,B".toList).map Char.toUpper).length ∧
    _parse_chains ["A,B".toList] = Except.ok [["A".toList, "B".toList]] := by
  refine ⟨by decide, ?_⟩
  rw [c3_chain_spec_parsing.1 ("A,B".toList) (by decide), if_pos (by decide)]
  rfl

/-- C4 counterexample: the parser accepts ",AB" (one comma, two distinct
letters), returning a group that contains the empty identifier and the
two-letter identifier "AB" — contradicting the claim that every identifier of
an accepted parse is a single uppercase letter. -/
theorem c4_counterexample :
    _parse_chains [",AB".toList] = Except.ok [[([] : List Char), "AB".toList]] ∧
    ("AB".toList).length = 2 ∧ (([] : List Char)).length = 0 := by
  exact ⟨rfl, rfl, rfl⟩

/-- C4 (amended): for every raw chain specification the parser accepts, every
character of every identifier in every returned group is an uppercase ASCII
letter A-Z; identifiers may however be empty or longer than one letter (see
the counterexample ",AB"). -/
theorem c4_parsed_identifier_chars_upper :
    ∀ (raw : List (List Char)) (gs : List (List (List Char))),
      _parse_chains raw = Except.ok gs →
      ∀ g ∈ gs, ∀ id ∈ g, ∀ ch ∈ id, isUpperAZ ch = true := by
  intro raw
  induction raw with
  | nil =>
    intro gs h g hg
    cases h
    simp at hg
  | cons chain rest ih =>
    intro gs h
    rw [show _parse_chains (chain :: rest) =
        (match validate_chain_string chain with
        | .error e => .error e
        | .ok v =>
          match _parse_chains rest with
          | .error e => .error e
          | .ok gs => .ok (splitComma v :: gs)) from rfl] at h
    cases hv : validate_chain_string chain with
    | error e =>
      rw [hv] at h
      exact absurd h (by simp)
    | ok v =>
      rw [hv] at h
      cases hr : _parse_chains rest with
      | error e =>
        rw [hr] at h
        exact absurd h (by simp)
      | ok gs' =>
        rw [hr] at h
        cases h
        intro g hg id hid ch hch
        rcases List.mem_cons.mp hg with rfl | hg'
        · obtain ⟨hin, hne⟩ := splitComma_chars hid hch
          rcases validate_chars hv ch hin with hup | hcomma
          · exact hup
          · exact absurd hcomma hne
        · exact ih gs' hr g hg' id hid ch hch

/-- C4 witness: the amended theorem applied to the accepted input "A,B". -/
theorem c4_parsed_identifier_chars_upper_witness :
    _parse_chains ["A,B".toList] = Except.ok [["A".toList, "B".toList]] ∧
    (∀ g ∈ [["A".toList, "B".toList]], ∀ id ∈ g, ∀ ch ∈ id, isUpperAZ ch = true) :=
  ⟨rfl, c4_parsed_identifier_chars_upper ["A,B".toList] [["A".toList, "B".toList]] rfl⟩

/-- C5: a pair with one atom in bucket 0 and one atom in bucket 1 appears
among the contacts detected in-process exactly when its Euclidean distance is
at most the cutoff; in particular a pair at distance exactly the cutoff is
kept (the boundary comparison is inclusive). -/
theorem c5_cutoff_inclusive
    (atoms : List SrcAtom) (chains : List (List (List Char))) (cutoff : ℚ)
    (a b : SrcAtom) (ha : a ∈ bucket0 atoms chains) (hb : b ∈ bucket1 atoms chains) :
    (mkContact a b (_calc_dist a b) ∈ calc_atomic_contacts_python atoms chains cutoff ↔
      _calc_dist a b ≤ (cutoff : ℝ)) ∧
    (_calc_dist a b = (cutoff : ℝ) →
      mkContact a b (_calc_dist a b) ∈ calc_atomic_contacts_python atoms chains cutoff) := by
  have hiff : mkContact a b (_calc_dist a b) ∈ calc_atomic_contacts_python atoms chains cutoff ↔
      _calc_dist a b ≤ (cutoff : ℝ) := by
    unfold calc_atomic_contacts_python
    constructor
    · intro hmem
      obtain ⟨ra, hra, hmem2⟩ := List.mem_flatMap.mp hmem
      obtain ⟨mb, hmb, heq⟩ := List.mem_filterMap.mp hmem2
      by_cases hle : _calc_dist ra mb ≤ (cutoff : ℝ)
      · rw [if_pos hle] at heq
        have hd : _calc_dist ra mb = _calc_dist a b :=
          congrArg Contact.dist (Option.some.inj heq)
        rwa [hd] at hle
      · rw [if_neg hle] at heq
        exact absurd heq (by simp)
    · intro hle
      exact List.mem_flatMap.mpr ⟨a, ha, List.mem_filterMap.mpr ⟨b, hb, by rw [if_pos hle]⟩⟩
  exact ⟨hiff, fun he => hiff.mpr (le_of_eq he)⟩

/-- C5 witness: the theorem applied to two atoms at distance exactly 10.5
with cutoff 10.5; the boundary pair is detected. -/
theorem c5_cutoff_inclusive_witness :
    exAtomA ∈ bucket0 [exAtomA, exAtomB] exChains ∧
    exAtomB ∈ bucket1 [exAtomA, exAtomB] exChains ∧
    _calc_dist exAtomA exAtomB = ((10.5 : ℚ) : ℝ) ∧
    mkContact exAtomA exAtomB (_calc_dist exAtomA exAtomB) ∈
      calc_atomic_contacts_python [exAtomA, exAtomB] exChains 10.5 := by
  have ha : exAtomA ∈ bucket0 [exAtomA, exAtomB] exChains := by
    rw [show bucket0 [exAtomA, exAtomB] exChains = [exAtomA] from rfl]
    exact List.mem_singleton.mpr rfl
  have hb : exAtomB ∈ bucket1 [exAtomA, exAtomB] exChains := by
    rw [show bucket1 [exAtomA, exAtomB] exChains = [exAtomB] from rfl]
    exact List.mem_singleton.mpr rfl
  have hd : _calc_dist exAtomA exAtomB = ((10.5 : ℚ) : ℝ) := by
    unfold _calc_dist
    rw [show ((((exAtomA.x : ℝ) - (exAtomB.x : ℝ)) ^ 2 +
        ((exAtomA.y : ℝ) - (exAtomB.y : ℝ)) ^ 2 +
        ((exAtomA.z : ℝ) - (exAtomB.z : ℝ)) ^ 2)) = ((10.5 : ℝ)) ^ 2 by
      norm_num [exAtomA, exAtomB]]
    rw [Real.sqrt_sq (by norm_num : (0 : ℝ) ≤ 10.5)]
    norm_num
  exact ⟨ha, hb, hd,
    (c5_cutoff_inclusive [exAtomA, exAtomB] exChains 10.5 exAtomA exAtomB ha hb).2 hd⟩

/-- C6: whenever contact detection yields an empty list, predict() fails with
the no-contacts warning and computes no scores: the error is reported, and
dg, dg_score, dg_elec and the contact counts all stay absent. -/
theorem c6_no_contacts_error
    (sa : List SrcAtom) (raw : List (List Char)) (elec : Option ℚ)
    (cpp : CppContacts) (cutoff : ℚ) (s : ProdigyLig) (ext : List Contact)
    (hinit : ProdigyLig.init sa raw elec cpp cutoff = Except.ok s)
    (hcpp : cppWellFormed s.cpp_contacts)
    (hempty : detectedContacts ext s = []) :
    (predict ext s).2 = some PredictErr.noContactsFound ∧
    (predict ext s).1.dg = none ∧
    (predict ext s).1.dg_score = none ∧
    (predict ext s).1.dg_elec = none ∧
    (predict ext s).1.contact_counts = none := by
  obtain ⟨-, -, -, -, hds, hde, hdg, hcc⟩ := init_ok_shape hinit
  cases hc : s.cpp_contacts with
  | pynone =>
    have hp : predict ext s = (s, some PredictErr.noContactsFound) := by
      simp only [predict, hc]
      exact predictRest_empty hempty
    rw [hp]
    exact ⟨rfl, hdg, hds, hde, hcc⟩
  | strs l =>
    cases l with
    | nil =>
      rw [hc] at hcpp
      exact absurd rfl hcpp
    | cons x xs =>
      have hext : ext = [] := by
        rw [show detectedContacts ext s = ext by simp only [detectedContacts, hc]] at hempty
        exact hempty
      have hp : predict ext s =
          ({ s with cpp_contacts := .str x }, some PredictErr.noContactsFound) := by
        simp only [predict, hc]
        exact predictRest_empty (by simp only [detectedContacts, hext])
      rw [hp]
      exact ⟨rfl, hdg, hds, hde, hcc⟩
  | str l =>
    cases l with
    | nil =>
      rw [hc] at hcpp
      exact absurd rfl hcpp
    | cons ch t =>
      have hext : ext = [] := by
        rw [show detectedContacts ext s = ext by simp only [detectedContacts, hc]] at hempty
        exact hempty
      have hp : predict ext s =
          ({ s with cpp_contacts := .str [ch] }, some PredictErr.noContactsFound) := by
        simp only [predict, hc]
        exact predictRest_empty (by simp only [detectedContacts, hext])
      rw [hp]
      exact ⟨rfl, hdg, hds, hde, hcc⟩

/-- C6 witness: the theorem applied to a session over a structure with no
atoms at all, for which detection returns the empty list. -/
theorem c6_no_contacts_error_witness :
    (predict [] exSessionEmpty).2 = some PredictErr.noContactsFound ∧
    (predict [] exSessionEmpty).1.dg = none ∧
    (predict [] exSessionEmpty).1.dg_score = none ∧
    (predict [] exSessionEmpty).1.dg_elec = none ∧
    (predict [] exSessionEmpty).1.contact_counts = none :=
  c6_no_contacts_error [] ["A".toList, "B".toList] (some 1) CppContacts.pynone 10.5
    exSessionEmpty [] rfl True.intro rfl

/-- C8: after a successful predict() on a freshly constructed session, dg is
always present, and dg_score and dg_elec are present exactly when an
electrostatics energy was supplied at construction. -/
theorem c8_outputs_iff_electrostatics
    (sa : List SrcAtom) (raw : List (List Char)) (elec : Option ℚ)
    (cpp : CppContacts) (cutoff : ℚ) (s : ProdigyLig) (ext : List Contact)
    (s' : ProdigyLig)
    (hinit : ProdigyLig.init sa raw elec cpp cutoff = Except.ok s)
    (hok : predict ext s = (s', none)) :
    s'.dg.isSome = true ∧ s'.dg_score.isSome = elec.isSome ∧
      s'.dg_elec.isSome = elec.isSome := by
  obtain ⟨-, hel, -, -, hds, hde, -, -⟩ := init_ok_shape hinit
  have hrest : ∃ s1 : ProdigyLig, predictRest ext s1 = (s', none) ∧
      s1.electrostatics = elec ∧ s1.dg_score = none ∧ s1.dg_elec = none := by
    cases hc : s.cpp_contacts with
    | pynone =>
      refine ⟨s, ?_, hel, hds, hde⟩
      simpa only [predict, hc] using hok
    | strs l =>
      cases l with
      | nil =>
        simp only [predict, hc] at hok
        exact absurd (Prod.ext_iff.mp hok).2 (by simp)
      | cons x xs =>
        refine ⟨{ s with cpp_contacts := .str x }, ?_, hel, hds, hde⟩
        simpa only [predict, hc] using hok
    | str l =>
      cases l with
      | nil =>
        simp only [predict, hc] at hok
        exact absurd (Prod.ext_iff.mp hok).2 (by simp)
      | cons ch t =>
        refine ⟨{ s with cpp_contacts := .str [ch] }, ?_, hel, hds, hde⟩
        simpa only [predict, hc] using hok
  obtain ⟨s1, hok1, hel1, hds1, hde1⟩ := hrest
  obtain ⟨hdg, hsome, hnone⟩ := predictRest_ok hok1
  cases helc : elec with
  | some e0 =>
    obtain ⟨h1, h2⟩ := hsome e0 (by rw [hel1, helc])
    exact ⟨hdg, by simp [h1], by simp [h2]⟩
  | none =>
    obtain ⟨h1, h2⟩ := hnone (by rw [hel1, helc])
    refine ⟨hdg, ?_, ?_⟩
    · rw [h1, hds1]
    · rw [h2, hde1]

/-- C8 witness: the theorem applied to a concrete two-atom session with
electrostatics supplied; its successful predict() sets all three outputs. -/
theorem c8_outputs_iff_electrostatics_witness :
    (predict [] exSessionContact).1.dg.isSome = true ∧
    (predict [] exSessionContact).1.dg_score.isSome = (some (5 : ℚ)).isSome ∧
    (predict [] exSessionContact).1.dg_elec.isSome = (some (5 : ℚ)).isSome := by
  have hle : _calc_dist exAtomA exAtomB0 ≤ ((10.5 : ℚ) : ℝ) :=
    (calc_dist_le_iff exAtomA exAtomB0 10.5).mpr
      (by norm_num [dist_sq, exAtomA, exAtomB0])
  have hdet : calc_atomic_contacts_python [exAtomA, exAtomB0] [[['A']], [['B']]] 10.5 =
      [mkContact exAtomA exAtomB0 (_calc_dist exAtomA exAtomB0)] := by
    unfold calc_atomic_contacts_python
    rw [show bucket0 [exAtomA, exAtomB0] [[['A']], [['B']]] = [exAtomA] from rfl,
      show bucket1 [exAtomA, exAtomB0] [[['A']], [['B']]] = [exAtomB0] from rfl]
    simp only [List.flatMap_cons, List.flatMap_nil, List.filterMap_cons,
      List.filterMap_nil]
    rw [if_pos hle]
    simp
  have h2 : (predict [] exSessionContact).2 = none := by
    have hp : predict [] exSessionContact = predictRest [] exSessionContact := rfl
    have hdc : detectedContacts [] exSessionContact =
        [mkContact exAtomA exAtomB0 (_calc_dist exAtomA exAtomB0)] := by
      rw [show detectedContacts [] exSessionContact =
        calc_atomic_contacts_python [exAtomA, exAtomB0] [[['A']], [['B']]] 10.5 from rfl]
      exact hdet
    rw [hp]
    simp only [predictRest, hdc]
    rfl
  exact c8_outputs_iff_electrostatics [exAtomA, exAtomB0] ["A".toList, "B".toList]
    (some 5) CppContacts.pynone 10.5 exSessionContact [] (predict [] exSessionContact).1
    rfl (by rw [← h2])

/-- C10 counterexample: with the external contact strategy configured,
predict() replaces the cpp_contacts one-element list by its first element
before detection, and that mutation persists past the NoContactsFound
failure — refuting the claim that no session field is left mutated by a
failed predict(). -/
theorem c10_counterexample :
    ProdigyLig.init [] ["A".toList, "B".toList] none
        (CppContacts.strs [['E', 'X', 'T']]) 10.5 =
      Except.ok ⟨[], [[['A']], [['B']]], none, CppContacts.strs [['E', 'X', 'T']], 10.5,
        none, none, none, none⟩ ∧
    (predict [] ⟨[], [[['A']], [['B']]], none, CppContacts.strs [['E', 'X', 'T']], 10.5,
        none, none, none, none⟩).2 = some PredictErr.noContactsFound ∧
    (predict [] ⟨[], [[['A']], [['B']]], none, CppContacts.strs [['E', 'X', 'T']], 10.5,
        none, none, none, none⟩).1.cpp_contacts = CppContacts.str ['E', 'X', 'T'] ∧
    CppContacts.str ['E', 'X', 'T'] ≠ CppContacts.strs [['E', 'X', 'T']] :=
  ⟨rfl, rfl, rfl, by decide⟩

/-- C10 (amended): on any failed predict(), with the in-process contact
strategy (cpp_contacts is None) the session state is returned exactly
unchanged, and with the external strategy configured as a one-element
argparse list the returned state is exactly the original session with only
cpp_contacts replaced by the list's first element — so that unwrapping
persists past the failure while every other field stays unchanged. -/
theorem c10_failed_predict_frame :
    ∀ (ext : List Contact) (s s' : ProdigyLig) (e : PredictErr),
      predict ext s = (s', some e) →
      (s.cpp_contacts = CppContacts.pynone → s' = s) ∧
      (∀ (x : List Char) (xs : List (List Char)),
        s.cpp_contacts = CppContacts.strs (x :: xs) →
        s' = { s with cpp_contacts := CppContacts.str x }) := by
  intro ext s s' e hp
  constructor
  · intro hc
    simp only [predict, hc] at hp
    exact predictRest_err hp
  · intro x xs hc
    simp only [predict, hc] at hp
    exact predictRest_err hp

/-- C10 witness: the amended theorem applied to a concrete failing
in-process run, where the returned state is the original session, and to a
concrete failing external-strategy run, where the returned state is the
original session with only cpp_contacts unwrapped. -/
theorem c10_failed_predict_frame_witness :
    (predict [] exSessionNoAtoms).1 = exSessionNoAtoms ∧
    (predict [] exSessionNoAtoms).2 = some PredictErr.noContactsFound ∧
    (predict [] exSessionCpp).1 =
      { exSessionCpp with cpp_contacts := CppContacts.str ['E', 'X', 'T'] } ∧
    (predict [] exSessionCpp).2 = some PredictErr.noContactsFound := by
  have h2 : (predict [] exSessionNoAtoms).2 = some PredictErr.noContactsFound := rfl
  have h4 : (predict [] exSessionCpp).2 = some PredictErr.noContactsFound := rfl
  refine ⟨?_, h2, ?_, h4⟩
  · exact (c10_failed_predict_frame [] exSessionNoAtoms (predict [] exSessionNoAtoms).1
      PredictErr.noContactsFound (by rw [← h2])).1 rfl
  · exact (c10_failed_predict_frame [] exSessionCpp (predict [] exSessionCpp).1
      PredictErr.noContactsFound (by rw [← h4])).2 ['E', 'X', 'T'] [] rfl
